import Mathlib

/-!
# Shallow embedding of the cue-go CUE-sheet parser

Definitions translate the Go sources (`cue.go`, the tokenizer/time file and
the data declarations) into Lean.  Strings are modelled as `String` /
`List Char`; the inputs in play are ASCII, where Go's byte-wise scanning and
rune-wise trimming coincide.  Go's `float64` is modelled by `ℚ` (all values
arising here are exact small rationals).  Go's `int` is modelled by `Int`;
`strconv.Atoi`'s 64-bit range check is made explicit.  Handlers that mutate
the sheet through pointers are modelled by state passing returning
`Except String Sheet`; `Parse` discards the sheet on any handler error,
matching Go's `return nil, err`.
-/

namespace Cue

/-- `unicode.IsSpace` restricted to the Latin-1 range, the bytes the Go
tokenizer can see: space, tab, newline, vertical tab, form feed, carriage
return, next-line (0x85) and no-break space (0xA0). -/
def isSpaceChar (c : Char) : Bool :=
  c = ' ' || c = '\t' || c = '\n' || c = '\r' ||
  c.toNat = 11 || c.toNat = 12 || c.toNat = 133 || c.toNat = 160

/-- `strings.TrimSpace`: drop leading and trailing white space. -/
def trimChars (cs : List Char) : List Char :=
  ((cs.dropWhile isSpaceChar).reverse.dropWhile isSpaceChar).reverse

/-- `isQuoteChar` from the tokenizer source: `'` or `"`. -/
def isQuoteChar (c : Char) : Bool :=
  c = '\'' || c = '"'

/-- `parseEscapeSequence` from the tokenizer source.  The Go function takes
the two-character slice `line[i:i+2]` whose first character is always the
backslash, so only the second character decides the lookup. -/
def parseEscapeSequence (d : Char) : Option Char :=
  if d = '"' then some '"'
  else if d = '\'' then some '\''
  else if d = '\\' then some '\\'
  else if d = 'n' then some '\n'
  else if d = 't' then some '\t'
  else none

/-- Scanner state: the active quote character (`none` when outside quotes),
the current in-progress parameter, and the parameters flushed so far. -/
abbrev ScanState := Option Char × List Char × List String

/-- The parameter-splitting loop of `parseCommand`, returning the loop's
exit state.  Each branch mirrors one branch of the Go `for` loop over the
bytes of the parameter section; the Go escape handling looks one byte
ahead (`i+1 >= l`), so the last byte of the line is matched separately
from the two-or-more-bytes case. -/
def scanLoop : List Char → ScanState → Except String ScanState
  | [], st => .ok st
  | [c], (none, param, acc) =>
    if isQuoteChar c then
      if param.isEmpty then .ok (some c, param, acc)
      else .error "unexpected quotation character"
    else if isSpaceChar c then
      .ok (none, [], if param.isEmpty then acc else acc ++ [param.asString])
    else if c = '\\' then .error "unfinished escape sequence"
    else .ok (none, param ++ [c], acc)
  | [c], (some q, param, acc) =>
    if c = q then .ok (none, param, acc)
    else if c = '\\' then .error "unfinished escape sequence"
    else .ok (some q, param ++ [c], acc)
  | c :: d :: rest2, (none, param, acc) =>
    if isQuoteChar c then
      if param.isEmpty then scanLoop (d :: rest2) (some c, param, acc)
      else .error "unexpected quotation character"
    else if isSpaceChar c then
      scanLoop (d :: rest2) (none, [], if param.isEmpty then acc else acc ++ [param.asString])
    else if c = '\\' then
      match parseEscapeSequence d with
      | some s => scanLoop rest2 (none, param ++ [s], acc)
      | none => scanLoop (d :: rest2) (none, param ++ [c], acc)
    else scanLoop (d :: rest2) (none, param ++ [c], acc)
  | c :: d :: rest2, (some q, param, acc) =>
    if c = q then scanLoop (d :: rest2) (none, param, acc)
    else if c = '\\' then
      match parseEscapeSequence d with
      | some s => scanLoop rest2 (some q, param ++ [s], acc)
      | none => scanLoop (d :: rest2) (some q, param ++ [c], acc)
    else scanLoop (d :: rest2) (some q, param ++ [c], acc)

/-- The parameter section of `parseCommand`: run the loop from the empty
state and, as in the Go code after the loop, always append the final
in-progress parameter (possibly empty). -/
def splitParams (cs : List Char) : Except String (List String) :=
  match scanLoop cs (none, [], []) with
  | .error e => .error e
  | .ok (_, param, acc) => .ok (acc ++ [param.asString])

/-- `parseCommand`: trim the line, take the leading non-space run as the
command; with no space the whole line is the command and the parameter list
is empty, otherwise split the trimmed remainder into parameters. -/
def parseCommand (line : String) : Except String (String × List String) :=
  let cs := trimChars line.toList
  let cmd := cs.takeWhile (fun c => !isSpaceChar c)
  if cmd.length = cs.length then .ok (cmd.asString, [])
  else
    match splitParams (trimChars (cs.drop cmd.length)) with
    | .error e => .error e
    | .ok params => .ok (cmd.asString, params)

/-- Numeric value of a digit run, most significant digit first. -/
def digitsVal (cs : List Char) : Int :=
  cs.foldl (fun acc c => acc * 10 + ((c.toNat : Int) - 48)) 0

/-- `strconv.Atoi`: an optional sign followed by one or more ASCII decimal
digits, with the 64-bit range check made explicit.  Error strings follow
Go's `strconv` wording. -/
def Atoi (s : String) : Except String Int :=
  let (sign, ds) : Int × List Char :=
    match s.toList with
    | '+' :: r => (1, r)
    | '-' :: r => (-1, r)
    | r => (1, r)
  if ds.isEmpty || !ds.all Char.isDigit then
    .error ("strconv.Atoi: parsing \"" ++ s ++ "\": invalid syntax")
  else
    let v := sign * digitsVal ds
    if v < -9223372036854775808 || v > 9223372036854775807 then
      .error ("strconv.Atoi: parsing \"" ++ s ++ "\": value out of range")
    else .ok v

/-- `strings.Split` on the single-character separator `:`. -/
def splitOnColon : List Char → List (List Char)
  | [] => [[]]
  | c :: rest =>
    if c = ':' then [] :: splitOnColon rest
    else
      match splitOnColon rest with
      | [] => [[c]]
      | p :: ps => (c :: p) :: ps

/-- `framesPerSecond` constant from the data declarations. -/
def framesPerSecond : Int := 75

/-- `errors.Wrap` from `github.com/pkg/errors`: "message: cause". -/
def wrapErr (msg cause : String) : String := msg ++ ": " ++ cause

/-- `parseTime`: split `mm:ss:ff` on colons into exactly three integer
parts; seconds above 59 and frames above 74 are rejected.  Negative parts
pass `strconv.Atoi` and are not range checked. -/
def parseTime (length : String) : Except String (Int × Int × Int) :=
  match splitOnColon length.toList with
  | [a, b, c] =>
    match Atoi a.asString with
    | .error e => .error (wrapErr "failed to parse minutes" e)
    | .ok min =>
      match Atoi b.asString with
      | .error e => .error (wrapErr "failed to parse seconds" e)
      | .ok sec =>
        if sec > 59 then
          .error "failed to parse seconds, seconds value can't be more than 59"
        else
          match Atoi c.asString with
          | .error e => .error (wrapErr "failed to parse frames value" e)
          | .ok frames =>
            if frames > framesPerSecond - 1 then
              .error ("failed to parse frames, frames value can't be more than " ++
                toString (framesPerSecond - 1))
            else .ok (min, sec, frames)
  | _ => .error "illegal time format, mm:ss:ff should be"

/-! ## Data model (the Go type declarations) -/

/-- `Time` value type from the data declarations. -/
structure Time where
  Min : Int
  Sec : Int
  Frames : Int
deriving DecidableEq, Repr

/-- `Time.Seconds`: `min*60 + sec + frames/75`, Go `float64` modelled
exactly in `ℚ`. -/
def Time.Seconds (time : Time) : ℚ :=
  (time.Min * 60 : Int) + (time.Sec : ℚ) + (time.Frames : ℚ) / 75

/-- `Index` record. -/
structure Index where
  Number : Int
  Time : Time
deriving DecidableEq, Repr

/-- `Track` record; `StartPosition`/`EndPosition` are the Go `float64`
fields filled by the post-parse resolver. -/
structure Track where
  Number : Int
  DataType : Int
  Title : String
  Performer : String
  Songwriter : String
  Flags : List Int
  Isrc : String
  Indexes : List Index
  Pregap : Time
  Postgap : Time
  StartPosition : ℚ
  EndPosition : ℚ
deriving DecidableEq, Repr

/-- `File` record; `Duration` is the caller-supplied duration in seconds. -/
structure File where
  Name : String
  «Type» : Int
  Tracks : List Track
  Duration : ℚ
deriving DecidableEq, Repr

/-- `Sheet` record. -/
structure Sheet where
  Catalog : String
  Performer : String
  Title : String
  Songwriter : String
  Comments : List String
  CdTextFile : String
  Files : List File
deriving DecidableEq, Repr

/-- The Go zero value of `Sheet`, allocated by `Parse` with `new(Sheet)`. -/
def initialSheet : Sheet := ⟨"", "", "", "", [], "", []⟩

/-- Enum constants from the shared `iota` block (the block opens with
`framesPerSecond = 75`, so the enumeration starts at 1). -/
def FileTypeBinary : Int := 1
def FileTypeMotorola : Int := 2
def FileTypeAiff : Int := 3
def FileTypeWave : Int := 4
def FileTypeMp3 : Int := 5
def DataTypeAudio : Int := 6
def DataTypeCdg : Int := 7
def DataTypeMode1_2048 : Int := 8
def DataTypeMode1_2352 : Int := 9
def DataTypeMode2_2336 : Int := 10
def DataTypeMode2_2352 : Int := 11
def DataTypeCdi_2336 : Int := 12
def DataTypeCdi_2352 : Int := 13
def TrackFlagDcp : Int := 14
def TrackFlag4ch : Int := 15
def TrackFlagPre : Int := 16
def TrackFlagScms : Int := 17

/-! ## Sheet cursors and mutation helpers

Go mutates the current file/track through pointers; the pure model replaces
the last element of the relevant list. -/

/-- `getCurrentFile`: the file started by the last FILE command. -/
def getCurrentFile (sheet : Sheet) : Option File :=
  sheet.Files.getLast?

/-- `getCurrentTrack`: the last track of the current file. -/
def getCurrentTrack (sheet : Sheet) : Option Track :=
  match getCurrentFile sheet with
  | none => none
  | some f => f.Tracks.getLast?

/-- Replace the last element of a list (identity on the empty list). -/
def updateLast (f : α → α) : List α → List α
  | [] => []
  | [x] => [f x]
  | x :: y :: rest => x :: updateLast f (y :: rest)

/-- Apply `g` to the current track (the pure counterpart of mutating the
pointer returned by `getCurrentTrack`). -/
def updateCurrentTrack (sheet : Sheet) (g : Track → Track) : Sheet :=
  { sheet with
    Files := updateLast (fun f => { f with Tracks := updateLast g f.Tracks }) sheet.Files }

/-- Go's `fmt` rendering of a `[]string`, used by the CATALOG error. -/
def goSliceString (ps : List String) : String :=
  "[" ++ String.intercalate " " ps ++ "]"

/-- Modelled from the spec: the helper `stringTruncate` is referenced by
the PERFORMER/SONGWRITER/TITLE handlers but its definition is not under
`src/`; the spec says these fields are "truncated to 80 characters". -/
def stringTruncate (s : String) (maxLen : Nat) : String :=
  (s.toList.take maxLen).asString

/-! ## Command handlers -/

/-- `parseCatalog`: the parameter must be exactly 13 decimal digits
(the regex `^[0-9]{13}$` written out in the source). -/
def parseCatalog (params : List String) (sheet : Sheet) : Except String Sheet :=
  let num := params.getD 0 ""
  if num.toList.length = 13 && num.toList.all Char.isDigit then
    .ok { sheet with Catalog := num }
  else .error (goSliceString params ++ " is not valid catalog number")

/-- `parseCdTextFile`: store the parameter unchecked. -/
def parseCdTextFile (params : List String) (sheet : Sheet) : Except String Sheet :=
  .ok { sheet with CdTextFile := params.getD 0 "" }

/-- The file-type table local to `parseFile`. -/
def parseFileType (t : String) : Except String Int :=
  if t = "BINARY" then .ok FileTypeBinary
  else if t = "MOTOROLA" then .ok FileTypeMotorola
  else if t = "AIFF" then .ok FileTypeAiff
  else if t = "WAVE" then .ok FileTypeWave
  else if t = "MP3" then .ok FileTypeMp3
  else .error ("unknown file type: " ++ t)

/-- `parseFile`: append a new file with the given name and type. -/
def parseFile (params : List String) (sheet : Sheet) : Except String Sheet :=
  match parseFileType (params.getD 1 "") with
  | .error e => .error e
  | .ok fileType =>
    .ok { sheet with Files := sheet.Files ++ [⟨params.getD 0 "", fileType, [], 0⟩] }

/-- The flag table local to `parseFlags`. -/
def flagParser (flag : String) : Except String Int :=
  if flag = "DCP" then .ok TrackFlagDcp
  else if flag = "4CH" then .ok TrackFlag4ch
  else if flag = "PRE" then .ok TrackFlagPre
  else if flag = "SCMS" then .ok TrackFlagScms
  else .error ("unknown track flag: " ++ flag)

/-- The parameter loop of `parseFlags`, appending each parsed flag to the
current track. -/
def parseFlagsLoop : List String → Sheet → Except String Sheet
  | [], sheet => .ok sheet
  | f :: fs, sheet =>
    match flagParser f with
    | .error e => .error e
    | .ok flag =>
      parseFlagsLoop fs
        (updateCurrentTrack sheet (fun t => { t with Flags := t.Flags ++ [flag] }))

/-- `parseFlags`: requires a current track, then maps every parameter
through the flag table. -/
def parseFlags (params : List String) (sheet : Sheet) : Except String Sheet :=
  match getCurrentTrack sheet with
  | none => .error "TRACK command should appears before FLAGS command"
  | some _ => parseFlagsLoop params sheet

/-- `parseIndex`: time first, then the index number (0..99); the first
index of a track must be 0 or 1 and every later one the successor of the
previous index's number. -/
def parseIndex (params : List String) (sheet : Sheet) : Except String Sheet :=
  match parseTime (params.getD 1 "") with
  | .error e => .error (wrapErr "failed to parse index start time" e)
  | .ok (min, sec, frames) =>
    match Atoi (params.getD 0 "") with
    | .error e => .error (wrapErr "failed to parse index number" e)
    | .ok number =>
      if number < 0 || number > 99 then
        .error "index number should be in 0..99 interval"
      else
        match getCurrentTrack sheet with
        | none => .error "TRACK command should appears before INDEX command"
        | some track =>
          match track.Indexes.getLast? with
          | none =>
            if number ≥ 2 then
              .error "first track index should has 0 or 1 index number"
            else
              .ok (updateCurrentTrack sheet (fun t =>
                { t with Indexes := t.Indexes ++ [⟨number, ⟨min, sec, frames⟩⟩] }))
          | some lastIndex =>
            let numberExpected := lastIndex.Number + 1
            if numberExpected ≠ number then
              .error ("expected " ++ toString numberExpected ++
                " index number but " ++ toString number ++ " recieved")
            else
              .ok (updateCurrentTrack sheet (fun t =>
                { t with Indexes := t.Indexes ++ [⟨number, ⟨min, sec, frames⟩⟩] }))

/-- One character of the source regex class `[0-9a-zA-z]`.  The last range
is `A`..`z`, which also admits `[`, `\`, `]`, `^`, `_` and the backtick. -/
def isIsrcChar (c : Char) : Bool :=
  ('0' ≤ c && c ≤ '9') || ('a' ≤ c && c ≤ 'z') || ('A' ≤ c && c ≤ 'z')

/-- The anchored ISRC regex of the source: five characters of the class
`[0-9a-zA-z]` followed by seven decimal digits. -/
def isrcMatch (s : String) : Bool :=
  match s.toList with
  | [a, b, c, d, e, f1, f2, f3, f4, f5, f6, f7] =>
    isIsrcChar a && isIsrcChar b && isIsrcChar c && isIsrcChar d && isIsrcChar e &&
    f1.isDigit && f2.isDigit && f3.isDigit && f4.isDigit && f5.isDigit &&
    f6.isDigit && f7.isDigit
  | _ => false

/-- `parseIsrc`: requires a current track with no indexes, then the
pattern check. -/
def parseIsrc (params : List String) (sheet : Sheet) : Except String Sheet :=
  let isrc := params.getD 0 ""
  match getCurrentTrack sheet with
  | none => .error "TRACK command should appears before ISRC command"
  | some track =>
    if !track.Indexes.isEmpty then
      .error "ISRC command must be specified before INDEX command"
    else if isrcMatch isrc then
      .ok (updateCurrentTrack sheet (fun t => { t with Isrc := isrc }))
    else .error (isrc ++ " is not valid ISRC number")

/-- `parsePerformer`: disc level without a current track, track level
otherwise, truncated to 80 characters. -/
def parsePerformer (params : List String) (sheet : Sheet) : Except String Sheet :=
  let performer := stringTruncate (params.getD 0 "") 80
  match getCurrentTrack sheet with
  | none => .ok { sheet with Performer := performer }
  | some _ => .ok (updateCurrentTrack sheet (fun t => { t with Performer := performer }))

/-- `parsePostgap`: requires a current track, then a valid time. -/
def parsePostgap (params : List String) (sheet : Sheet) : Except String Sheet :=
  match getCurrentTrack sheet with
  | none => .error "POSTGAP command must appear after a TRACK command"
  | some _ =>
    match parseTime (params.getD 0 "") with
    | .error e => .error (wrapErr "failed to parse postgap time" e)
    | .ok (min, sec, frames) =>
      .ok (updateCurrentTrack sheet (fun t => { t with Postgap := ⟨min, sec, frames⟩ }))

/-- `parsePregap`: requires a current track with no indexes, then a valid
time. -/
def parsePregap (params : List String) (sheet : Sheet) : Except String Sheet :=
  match getCurrentTrack sheet with
  | none => .error "PREGAP command must appear after a TRACK command"
  | some track =>
    if !track.Indexes.isEmpty then
      .error "PREGAP command must appear before any INDEX command"
    else
      match parseTime (params.getD 0 "") with
      | .error e => .error (wrapErr "failed to parse pregap time" e)
      | .ok (min, sec, frames) =>
        .ok (updateCurrentTrack sheet (fun t => { t with Pregap := ⟨min, sec, frames⟩ }))

/-- `parseRem`: append the space-joined parameters to the comments. -/
def parseRem (params : List String) (sheet : Sheet) : Except String Sheet :=
  .ok { sheet with Comments := sheet.Comments ++ [String.intercalate " " params] }

/-- `parseSongWriter`: disc or track level, truncated to 80 characters. -/
def parseSongWriter (params : List String) (sheet : Sheet) : Except String Sheet :=
  let songwriter := stringTruncate (params.getD 0 "") 80
  match getCurrentTrack sheet with
  | none => .ok { sheet with Songwriter := songwriter }
  | some _ => .ok (updateCurrentTrack sheet (fun t => { t with Songwriter := songwriter }))

/-- `parseTitle`: disc or track level, truncated to 80 characters. -/
def parseTitle (params : List String) (sheet : Sheet) : Except String Sheet :=
  let title := stringTruncate (params.getD 0 "") 80
  match getCurrentTrack sheet with
  | none => .ok { sheet with Title := title }
  | some _ => .ok (updateCurrentTrack sheet (fun t => { t with Title := title }))

/-- The data-type table local to `parseTrack`. -/
def parseDataType (t : String) : Except String Int :=
  if t = "AUDIO" then .ok DataTypeAudio
  else if t = "CDG" then .ok DataTypeCdg
  else if t = "MODE1/2048" then .ok DataTypeMode1_2048
  else if t = "MODE1/2352" then .ok DataTypeMode1_2352
  else if t = "MODE2/2336" then .ok DataTypeMode2_2336
  else if t = "MODE2/2352" then .ok DataTypeMode2_2352
  else if t = "CDI/2336" then .ok DataTypeCdi_2336
  else if t = "CDI/2352" then .ok DataTypeCdi_2352
  else .error ("unknown track datatype: " ++ t)

/-- The Go zero value of `Track` with number and data type filled in. -/
def newTrack (number dataType : Int) : Track :=
  ⟨number, dataType, "", "", "", [], "", [], ⟨0, 0, 0⟩, ⟨0, 0, 0⟩, 0, 0⟩

/-- Append a track to the current (last) file. -/
def appendTrack (sheet : Sheet) (t : Track) : Sheet :=
  { sheet with
    Files := updateLast (fun f => { f with Tracks := f.Tracks ++ [t] }) sheet.Files }

/-- `parseTrack`: requires at least one file; the number must parse and be
at least 1 and the data type known; when the current file already has
tracks, the number must be the successor of the last track's number.  The
first track of a file is not compared against anything. -/
def parseTrack (params : List String) (sheet : Sheet) : Except String Sheet :=
  match getCurrentFile sheet with
  | none => .error "unexpected TRACK command, FILE command expected first"
  | some file =>
    match Atoi (params.getD 0 "") with
    | .error e => .error (wrapErr "failed to parse track number parameter" e)
    | .ok number =>
      if number < 1 then
        .error "failed to parse track number parameter. value should be in 1..99 range"
      else
        match parseDataType (params.getD 1 "") with
        | .error e => .error e
        | .ok dataType =>
          match file.Tracks.getLast? with
          | some lastTrack =>
            if lastTrack.Number ≠ number - 1 then
              .error ("expected track number " ++ toString (number - 1) ++
                ", but " ++ toString number ++ " recieved")
            else
              .ok (appendTrack sheet (newTrack number dataType))
          | none => .ok (appendTrack sheet (newTrack number dataType))

/-! ## Dispatch and driver -/

/-- `parsersMap`: command name to expected parameter count (−1 means zero
or more) and handler. -/
def parsersMap (cmd : String) :
    Option (Int × (List String → Sheet → Except String Sheet)) :=
  if cmd = "CATALOG" then some (1, parseCatalog)
  else if cmd = "CDTEXTFILE" then some (1, parseCdTextFile)
  else if cmd = "FILE" then some (2, parseFile)
  else if cmd = "FLAGS" then some (-1, parseFlags)
  else if cmd = "INDEX" then some (2, parseIndex)
  else if cmd = "ISRC" then some (1, parseIsrc)
  else if cmd = "PERFORMER" then some (1, parsePerformer)
  else if cmd = "POSTGAP" then some (1, parsePostgap)
  else if cmd = "PREGAP" then some (1, parsePregap)
  else if cmd = "REM" then some (-1, parseRem)
  else if cmd = "SONGWRITER" then some (1, parseSongWriter)
  else if cmd = "TITLE" then some (1, parseTitle)
  else if cmd = "TRACK" then some (2, parseTrack)
  else none

/-- Processing of one non-blank line inside `Parse`, without the
`"line N: "` tag that `Parse` puts in front of every error. -/
def stepLine (sheet : Sheet) (line : String) : Except String Sheet :=
  match parseCommand line with
  | .error e => .error e
  | .ok (cmd, params) =>
    match parsersMap cmd with
    | none => .error ("unknown command '" ++ cmd ++ "'")
    | some (paramsExpected, parser) =>
      if paramsExpected ≠ -1 && paramsExpected ≠ (params.length : Int) then
        .error ("command " ++ cmd ++ ": recieved " ++ toString params.length ++
          " parameters but " ++ toString paramsExpected ++ " expected")
      else
        match parser params sheet with
        | .error e => .error ("failed to parse " ++ cmd ++ " command. " ++ e)
        | .ok sheet2 => .ok sheet2

/-- The read loop of `Parse`: skip blank lines, count non-blank ones
(`n` non-blank lines seen so far), tag every error with the 1-based
non-blank line number. -/
def runLines : List String → Nat → Sheet → Except String Sheet
  | [], _, sheet => .ok sheet
  | l :: ls, n, sheet =>
    if trimChars l.toList = [] then runLines ls n sheet
    else
      match stepLine sheet l with
      | .error e => .error ("line " ++ toString (n + 1) ++ ": " ++ e)
      | .ok sheet2 => runLines ls (n + 1) sheet2

/-- Modelled from the spec: the method `Track.StartTime` is called by
`Parse` but its definition is not under `src/`; per the spec it is "the
time of the track's first `Index`", and "a track with zero indexes yields
a degenerate (zero) start time". -/
def Track.StartTime (t : Track) : Time :=
  match t.Indexes with
  | [] => ⟨0, 0, 0⟩
  | i :: _ => i.Time

/-- The inner track loop of the position resolver: each track starts at
its first index time; it ends at the next track's pregap seconds when that
is non-zero, else at the next track's start time, and the last track of a
file ends at the file's duration. -/
def resolveTracks (duration : ℚ) : List Track → List Track
  | [] => []
  | [t] =>
    [{ t with StartPosition := t.StartTime.Seconds, EndPosition := duration }]
  | t :: nt :: rest =>
    { t with
      StartPosition := t.StartTime.Seconds,
      EndPosition :=
        if nt.Pregap.Seconds = 0 then nt.StartTime.Seconds else nt.Pregap.Seconds } ::
    resolveTracks duration (nt :: rest)

/-- The outer file loop of the position resolver: caller durations are
assigned to files by position (`dLen > fi`); files beyond the list keep
their duration. -/
def resolveFiles : List ℚ → List File → List File
  | _, [] => []
  | [], f :: fs =>
    { f with Tracks := resolveTracks f.Duration f.Tracks } :: resolveFiles [] fs
  | d :: ds, f :: fs =>
    { f with Duration := d, Tracks := resolveTracks d f.Tracks } :: resolveFiles ds fs

/-- The post-parse position pass of `Parse`. -/
def resolve (durations : List ℚ) (sheet : Sheet) : Sheet :=
  { sheet with Files := resolveFiles durations sheet.Files }

/-- `Parse`: process every line, then run the position resolver; on the
first failing line return only the tagged error. -/
def Parse (lines : List String) (durations : List ℚ) : Except String Sheet :=
  match runLines lines 0 initialSheet with
  | .error e => .error e
  | .ok sheet => .ok (resolve durations sheet)

/-! ## Specification helpers and concrete fixtures -/

instance {ε α : Type} [DecidableEq ε] [DecidableEq α] : DecidableEq (Except ε α) :=
  fun x y =>
  match x, y with
  | .ok a, .ok b => if h : a = b then .isTrue (by rw [h]) else .isFalse (by simp [h])
  | .error a, .error b => if h : a = b then .isTrue (by rw [h]) else .isFalse (by simp [h])
  | .ok _, .error _ => .isFalse (by simp)
  | .error _, .ok _ => .isFalse (by simp)

/-- Did the Go function return a `nil` error? -/
def resultOk {α : Type} : Except String α → Bool
  | .ok _ => true
  | .error _ => false

/-- A sheet right after `FILE "test.wav" WAVE`: one file, no tracks. -/
def oneFileSheet : Sheet :=
  { initialSheet with Files := [⟨"test.wav", FileTypeWave, [], 0⟩] }

/-- One file holding one audio track with no indexes yet. -/
def oneTrackSheet : Sheet :=
  { initialSheet with
    Files := [⟨"test.wav", FileTypeWave, [newTrack 1 DataTypeAudio], 0⟩] }

/-- One file holding one audio track that already has `INDEX 01 00:00:00`. -/
def indexedSheet : Sheet :=
  { initialSheet with
    Files := [⟨"test.wav", FileTypeWave,
      [{ newTrack 1 DataTypeAudio with Indexes := [⟨1, ⟨0, 0, 0⟩⟩] }], 0⟩] }

/-- The spec's position-resolution scenario: two tracks in one file. -/
def exampleLines : List String :=
  ["FILE \"test.wav\" WAVE",
   "TRACK 01 AUDIO",
   "INDEX 01 00:00:00",
   "TRACK 02 AUDIO",
   "INDEX 01 03:00:00"]

/-- The sheet built from `exampleLines` before position resolution. -/
def exampleParsedSheet : Sheet :=
  { initialSheet with
    Files := [⟨"test.wav", FileTypeWave,
      [{ newTrack 1 DataTypeAudio with Indexes := [⟨1, ⟨0, 0, 0⟩⟩] },
       { newTrack 2 DataTypeAudio with Indexes := [⟨1, ⟨3, 0, 0⟩⟩] }], 0⟩] }

/-- The sheet built from `exampleLines` with duration 2400 resolved:
track 1 spans 0..180 and track 2 spans 180..2400. -/
def exampleResolvedSheet : Sheet :=
  { initialSheet with
    Files := [⟨"test.wav", FileTypeWave,
      [{ newTrack 1 DataTypeAudio with
          Indexes := [⟨1, ⟨0, 0, 0⟩⟩], StartPosition := 0, EndPosition := 180 },
       { newTrack 2 DataTypeAudio with
          Indexes := [⟨1, ⟨3, 0, 0⟩⟩], StartPosition := 180, EndPosition := 2400 }], 2400⟩] }

/-- Default track used with positional `getD` lookups in theorem
statements. -/
def defTrack : Track := newTrack 0 0

/-- Quote modes reachable by the scan hold actual quote characters. -/
def modeOk : ScanState → Prop
  | (none, _, _) => True
  | (some q, _, _) => isQuoteChar q = true

/-- Number of non-blank lines in a list, the quantity the error line
counter of `Parse` tracks. -/
def countNonBlank : List String → Nat
  | [] => 0
  | l :: ls => (if trimChars l.toList = [] then 0 else 1) + countNonBlank ls

/-! ## Theorems -/

/-- C1 (counterexample): the first TRACK appended to a file is not forced
to carry number 1: on a sheet holding one empty file, `TRACK 5 AUDIO`
succeeds and appends a track numbered 5, while the claim requires it to
fail. -/
theorem c1_counterexample :
    parseTrack ["5", "AUDIO"] oneFileSheet =
      .ok { initialSheet with
        Files := [⟨"test.wav", FileTypeWave, [newTrack 5 DataTypeAudio], 0⟩] } := by
  decide

/-- C1 (amended): with a current file, a parsed number and a known data
type, TRACK succeeds exactly when the number is at least 1 and either the
file has no track yet (the first track's number is not otherwise
constrained) or the number is the successor of the last track's number. -/
theorem c1_track_numbering (s : Sheet) (file : File) (ns ds : String) (n dt : Int)
    (hf : getCurrentFile s = some file) (hn : Atoi ns = .ok n)
    (hd : parseDataType ds = .ok dt) :
    resultOk (parseTrack [ns, ds] s) = true ↔
      1 ≤ n ∧ (file.Tracks.getLast? = none ∨
        ∃ lt, file.Tracks.getLast? = some lt ∧ lt.Number = n - 1) := by
  unfold parseTrack
  rw [hf]
  simp only [List.getD_cons_zero, List.getD_cons_succ, hn, hd]
  by_cases h1 : n < 1
  · simp [h1, resultOk]
  · simp only [h1, if_false]
    cases hlt : file.Tracks.getLast? with
    | none => simp [resultOk]; omega
    | some lt =>
      by_cases h2 : lt.Number = n - 1
      · simp [h2, resultOk]; omega
      · simp [h2, resultOk]

/-- C1 (witness): `c1_track_numbering` applied to a sheet with one empty
file and the line `TRACK 2 AUDIO`. -/
theorem c1_witness :
    resultOk (parseTrack ["2", "AUDIO"] oneFileSheet) = true ↔
      1 ≤ (2 : Int) ∧ ((⟨"test.wav", FileTypeWave, [], 0⟩ : File).Tracks.getLast? = none ∨
        ∃ lt, (⟨"test.wav", FileTypeWave, [], 0⟩ : File).Tracks.getLast? = some lt ∧
          lt.Number = 2 - 1) :=
  c1_track_numbering oneFileSheet ⟨"test.wav", FileTypeWave, [], 0⟩ "2" "AUDIO" 2
    DataTypeAudio rfl rfl rfl

/-- C2 (counterexample): `INDEX 01 00:00:00` followed by `INDEX 03
00:10:00` fails, but with the message "expected 2 index number but 3
recieved", not the claimed "expected index number 2 but 3 received". -/
theorem c2_counterexample :
    parseIndex ["03", "00:10:00"] indexedSheet =
      .error "expected 2 index number but 3 recieved" ∧
    "expected 2 index number but 3 recieved" ≠ "expected index number 2 but 3 received" :=
  ⟨by decide, by decide⟩

/-- C2 (amended): with a current track, a valid time and a parsed number,
INDEX rejects numbers outside 0..99; the first index succeeds exactly for
numbers 0 and 1; a later index succeeds exactly for the successor of the
previous index's number and otherwise fails with the message
"expected (previous+1) index number but (received) recieved". -/
theorem c2_index_numbering (s : Sheet) (t : Track) (ns ts : String) (n mi se fr : Int)
    (ht : getCurrentTrack s = some t) (htime : parseTime ts = .ok (mi, se, fr))
    (hn : Atoi ns = .ok n) :
    ((n < 0 ∨ 99 < n) → resultOk (parseIndex [ns, ts] s) = false) ∧
    (0 ≤ n → n ≤ 99 → t.Indexes.getLast? = none →
      (resultOk (parseIndex [ns, ts] s) = true ↔ n = 0 ∨ n = 1)) ∧
    (∀ li, t.Indexes.getLast? = some li → 0 ≤ n → n ≤ 99 →
      ((resultOk (parseIndex [ns, ts] s) = true ↔ n = li.Number + 1) ∧
       (n ≠ li.Number + 1 →
         parseIndex [ns, ts] s = .error ("expected " ++ toString (li.Number + 1) ++
           " index number but " ++ toString n ++ " recieved")))) := by
  unfold parseIndex
  simp only [List.getD_cons_zero, List.getD_cons_succ, htime, hn, ht]
  refine ⟨?_, ?_, ?_⟩
  · intro hr
    have hb : (n < 0 || n > 99) = true := by
      rcases hr with h | h <;> simp [h]
    simp [hb, resultOk]
  · intro h0 h99 hlast
    have hb : (n < 0 || n > 99) = false := by simp; omega
    simp only [hb, if_false, Bool.false_eq_true, hlast]
    by_cases h2 : n ≥ 2
    · simp [h2, resultOk]; omega
    · simp [h2, resultOk]; omega
  · intro li hlast h0 h99
    have hb : (n < 0 || n > 99) = false := by simp; omega
    simp only [hb, if_false, Bool.false_eq_true, hlast]
    by_cases h2 : li.Number + 1 = n
    · simp [h2, resultOk]
    · constructor
      · simp [h2, resultOk]; omega
      · intro hne
        simp [h2]

/-- C2 (witness): `c2_index_numbering` applied to the indexed fixture and
the line `INDEX 03 00:10:00`. -/
theorem c2_witness :
    resultOk (parseIndex ["03", "00:10:00"] indexedSheet) = true ↔
      (3 : Int) = (⟨1, ⟨0, 0, 0⟩⟩ : Index).Number + 1 :=
  ((c2_index_numbering indexedSheet
      { newTrack 1 DataTypeAudio with Indexes := [⟨1, ⟨0, 0, 0⟩⟩] }
      "03" "00:10:00" 3 0 10 0 rfl rfl rfl).2.2
    ⟨1, ⟨0, 0, 0⟩⟩ rfl (by decide) (by decide)).1

/-- C3 (code evaluation at the failing input): with a current track and no
indexes, ISRC accepts `_____1234567`, whose first five characters are not
alphanumeric: the source regex class `[0-9a-zA-z]` also covers the
characters between `Z` and `z`, among them the underscore. -/
theorem c3_code_eval :
    parseIsrc ["_____1234567"] oneTrackSheet =
      .ok { initialSheet with Files := [⟨"test.wav", FileTypeWave,
        [{ newTrack 1 DataTypeAudio with Isrc := "_____1234567" }], 0⟩] } ∧
    Char.isAlphanum '_' = false ∧ isIsrcChar '_' = true :=
  ⟨by decide, by decide, by decide⟩

/-- C5: on a track that already has an index, ISRC and PREGAP both fail
with their ordering errors (returned before either handler touches the
track, so `Isrc` and `Pregap` are unchanged). -/
theorem c5_isrc_pregap_after_index (s : Sheet) (t : Track) (ps : List String)
    (ht : getCurrentTrack s = some t) (hi : t.Indexes ≠ []) :
    parseIsrc ps s = .error "ISRC command must be specified before INDEX command" ∧
    parsePregap ps s = .error "PREGAP command must appear before any INDEX command" := by
  constructor
  · unfold parseIsrc
    rw [ht]
    simp [List.isEmpty_iff, hi]
  · unfold parsePregap
    rw [ht]
    simp [List.isEmpty_iff, hi]

/-- C5 (witness): `c5_isrc_pregap_after_index` applied to the indexed
fixture. -/
theorem c5_witness :
    parseIsrc ["ABCDE1234567"] indexedSheet =
      .error "ISRC command must be specified before INDEX command" ∧
    parsePregap ["ABCDE1234567"] indexedSheet =
      .error "PREGAP command must appear before any INDEX command" :=
  c5_isrc_pregap_after_index indexedSheet
    { newTrack 1 DataTypeAudio with Indexes := [⟨1, ⟨0, 0, 0⟩⟩] }
    ["ABCDE1234567"] rfl (by decide)

/-- C6: with no current track, FLAGS, INDEX, ISRC, POSTGAP and PREGAP all
fail (for any parameters); with no file, TRACK fails. -/
theorem c6_context_required (s : Sheet) (ps : List String) :
    (getCurrentTrack s = none →
      resultOk (parseFlags ps s) = false ∧
      resultOk (parseIndex ps s) = false ∧
      resultOk (parseIsrc ps s) = false ∧
      resultOk (parsePostgap ps s) = false ∧
      resultOk (parsePregap ps s) = false) ∧
    (s.Files = [] → resultOk (parseTrack ps s) = false) := by
  constructor
  · intro h
    refine ⟨?_, ?_, ?_, ?_, ?_⟩
    · simp [parseFlags, h, resultOk]
    · unfold parseIndex
      cases hpt : parseTime (ps.getD 1 "") with
      | error e => simp [resultOk]
      | ok v =>
        obtain ⟨mi, se, fr⟩ := v
        cases hn : Atoi (ps.getD 0 "") with
        | error e => simp [resultOk]
        | ok n =>
          by_cases hr : (n < 0 || n > 99) = true
          · simp [hr, resultOk]
          · simp only [Bool.not_eq_true] at hr
            simp [hr, h, resultOk]
    · simp [parseIsrc, h, resultOk]
    · simp [parsePostgap, h, resultOk]
    · simp [parsePregap, h, resultOk]
  · intro h
    have hf : getCurrentFile s = none := by simp [getCurrentFile, h]
    simp [parseTrack, hf, resultOk]

/-- C6 (witness): `c6_context_required` applied to the empty sheet with
representative parameters for each command. -/
theorem c6_witness :
    resultOk (parseFlags ["DCP"] initialSheet) = false ∧
    resultOk (parseIndex ["01", "00:00:00"] initialSheet) = false ∧
    resultOk (parseIsrc ["ABCDE1234567"] initialSheet) = false ∧
    resultOk (parsePostgap ["00:00:00"] initialSheet) = false ∧
    resultOk (parsePregap ["00:00:00"] initialSheet) = false ∧
    resultOk (parseTrack ["01", "AUDIO"] initialSheet) = false := by
  have h := c6_context_required initialSheet ["01", "00:00:00"]
  have h2 := c6_context_required initialSheet ["DCP"]
  have h3 := c6_context_required initialSheet ["ABCDE1234567"]
  have h4 := c6_context_required initialSheet ["00:00:00"]
  have h5 := c6_context_required initialSheet ["01", "AUDIO"]
  exact ⟨(h2.1 rfl).1, (h.1 rfl).2.1, (h3.1 rfl).2.2.1, (h4.1 rfl).2.2.2.1,
    (h4.1 rfl).2.2.2.2, h5.2 rfl⟩

/-- C9: `parseTime` succeeds exactly when the string splits on colons into
three parts, each part is an integer accepted by `strconv.Atoi` (signs
included), the seconds part is at most 59 and the frames part at most 74;
in particular "01:-5:00" is accepted, and PREGAP stores a Time with a
negative minutes field whose `Seconds` value is negative. -/
theorem c9_negative_time_fields :
    (∀ s : String, resultOk (parseTime s) = true ↔
      ∃ a b c mv sv fv, splitOnColon s.toList = [a, b, c] ∧
        Atoi a.asString = .ok mv ∧ Atoi b.asString = .ok sv ∧ sv ≤ 59 ∧
        Atoi c.asString = .ok fv ∧ fv ≤ 74) ∧
    parseTime "01:-5:00" = .ok (1, -5, 0) ∧
    parsePregap ["-1:00:00"] oneTrackSheet =
      .ok { initialSheet with Files := [⟨"test.wav", FileTypeWave,
        [{ newTrack 1 DataTypeAudio with Pregap := ⟨-1, 0, 0⟩ }], 0⟩] } ∧
    Time.Seconds ⟨-1, 0, 0⟩ < 0 := by
  refine ⟨?_, by decide, by decide, by norm_num [Time.Seconds]⟩
  intro s
  unfold parseTime
  simp only [String.toList, framesPerSecond]
  split
  · rename_i a b c heq
    cases ha : Atoi a.asString with
    | error e => simp [resultOk, heq, ha]
    | ok mv =>
      cases hb : Atoi b.asString with
      | error e => simp [resultOk, heq, ha, hb]
      | ok sv =>
        by_cases hs : sv > 59
        · dsimp only
          rw [if_pos hs]
          simp only [resultOk]
          simp [heq, ha, hb]
          omega
        · cases hc : Atoi c.asString with
          | error e => simp [resultOk, heq, ha, hb, hs, hc]
          | ok fv =>
            by_cases hfr : fv > (75 : Int) - 1
            · dsimp only
              rw [if_neg hs, if_pos hfr]
              simp only [resultOk]
              simp [heq, ha, hb, hc]
              omega
            · dsimp only
              rw [if_neg hs, if_neg hfr]
              simp only [resultOk]
              simp [heq, ha, hb, hc]
              exact ⟨a, b, c, ⟨rfl, rfl, rfl⟩, ⟨mv, ha⟩, sv, hb, by omega, fv, hc, by omega⟩
  · rename_i hne
    simp only [resultOk]
    constructor
    · intro h
      simp at h
    · rintro ⟨a, b, c, mv, sv, fv, hsp, _⟩
      exact absurd hsp (hne a b c)

/-- C9 (witness): `c9_negative_time_fields` instantiated at "01:-5:00". -/
theorem c9_witness : parseTime "01:-5:00" = .ok (1, -5, 0) :=
  c9_negative_time_fields.2.1

/-- C4: after resolution every track's start position is the seconds value
of its first index time (`StartTime`, modelled from the spec); its end
position is the next track's pregap seconds when non-zero, else the next
track's start seconds, and the file's duration for the last track;
caller durations are assigned to files by position with out-of-range files
keeping their duration, files created by FILE carrying duration 0; and the
spec's two-track scenario resolves to start/end 0/180 and 180/2400. -/
theorem c4_resolver :
    (∀ (dur : ℚ) (ts : List Track) (ti : Nat), ti < ts.length →
      ((resolveTracks dur ts).getD ti defTrack).StartPosition =
        ((ts.getD ti defTrack).StartTime).Seconds ∧
      ((resolveTracks dur ts).getD ti defTrack).EndPosition =
        (if ti + 1 < ts.length then
          (if (ts.getD (ti + 1) defTrack).Pregap.Seconds = 0 then
            ((ts.getD (ti + 1) defTrack).StartTime).Seconds
          else (ts.getD (ti + 1) defTrack).Pregap.Seconds)
        else dur)) ∧
    (∀ (ds : List ℚ) (fs : List File),
      (resolveFiles ds fs).map File.Duration =
        ds.take fs.length ++ (fs.map File.Duration).drop ds.length) ∧
    (∀ (ps : List String) (s s2 : Sheet), parseFile ps s = .ok s2 →
      s2.Files.getLast?.map File.Duration = some 0) ∧
    Parse exampleLines [2400] = .ok exampleResolvedSheet := by
  refine ⟨?_, ?_, ?_, ?_⟩
  · intro dur ts
    induction ts with
    | nil => intro ti h; simp at h
    | cons t rest ih =>
      cases rest with
      | nil =>
        intro ti h
        cases ti with
        | zero => constructor <;> simp [resolveTracks]
        | succ k => simp at h
      | cons nt rest2 =>
        intro ti h
        cases ti with
        | zero => constructor <;> simp [resolveTracks]
        | succ k =>
          have hk : k < (nt :: rest2).length := by simpa using h
          have hih := ih k hk
          simpa [resolveTracks, Nat.succ_lt_succ_iff] using hih
  · intro ds fs
    induction fs generalizing ds with
    | nil => simp [resolveFiles]
    | cons f fs ih =>
      cases ds with
      | nil => simp [resolveFiles, ih]
      | cons d ds2 => simp [resolveFiles, ih]
  · intro ps s s2 hok
    unfold parseFile at hok
    cases hft : parseFileType (ps.getD 1 "") with
    | error e => rw [hft] at hok; exact absurd hok (by simp)
    | ok ft =>
      rw [hft] at hok
      simp at hok
      subst hok
      simp
  · unfold Parse
    rw [show runLines exampleLines 0 initialSheet = .ok exampleParsedSheet from by decide]
    have hres : resolve [2400] exampleParsedSheet = exampleResolvedSheet := by
      simp [resolve, resolveFiles, resolveTracks, Track.StartTime, newTrack,
        exampleParsedSheet, exampleResolvedSheet, initialSheet]
      norm_num [Time.Seconds]
    dsimp only
    rw [hres]


/-- C4 (witness): `c4_resolver` instantiated at a one-track list with
duration 2400. -/
theorem c4_witness :
    ((resolveTracks 2400 [defTrack]).getD 0 defTrack).StartPosition =
      (([defTrack].getD 0 defTrack).StartTime).Seconds ∧
    ((resolveTracks 2400 [defTrack]).getD 0 defTrack).EndPosition =
      (if 0 + 1 < [defTrack].length then
        (if ([defTrack].getD (0 + 1) defTrack).Pregap.Seconds = 0 then
          (([defTrack].getD (0 + 1) defTrack).StartTime).Seconds
        else ([defTrack].getD (0 + 1) defTrack).Pregap.Seconds)
      else 2400) :=
  c4_resolver.1 2400 [defTrack] 0 (by decide)



/-- Running the scanner over a concatenation first runs it over the left
part; when that part completes without error the scan continues from its
exit state.  (A left part that ends inside an escape sequence errors, so
the hypothesis rules it out.) -/
theorem scanLoop_append_ok (ys : List Char) : ∀ (xs : List Char) (st : ScanState),
    ∀ st2, scanLoop xs st = .ok st2 → scanLoop (xs ++ ys) st = scanLoop ys st2 := by
  intro xs st
  induction xs, st using scanLoop.induct <;>
    intro st2 h <;>
    cases ys with
    | nil => simpa using h
    | cons e ys2 =>
      simp [scanLoop, *] at h ⊢ <;> simp_all <;>
        (obtain ⟨m, p, a⟩ := st2; simp_all)


/-- States reached from a well-formed state keep quote modes well
formed: the mode is only ever set to a character that satisfied
`isQuoteChar`. -/
theorem scanLoop_modeOk : ∀ (xs : List Char) (st : ScanState),
    ∀ st2, scanLoop xs st = .ok st2 → modeOk st → modeOk st2 := by
  intro xs st
  induction xs, st using scanLoop.induct <;>
    intro st2 h hm <;>
    simp [scanLoop, *] at h ⊢ <;>
    first
    | (subst h; simp_all [modeOk])
    | simp_all [modeOk]


/-- The scan fails with "unexpected quotation character" only by reaching
a quote character in non-quote mode with a non-empty current parameter. -/
theorem scanLoop_quote_error_mp : ∀ (xs : List Char) (st : ScanState),
    scanLoop xs st = .error "unexpected quotation character" →
    ∃ pre c post p2 acc2, xs = pre ++ c :: post ∧ isQuoteChar c = true ∧
      scanLoop pre st = .ok (none, p2, acc2) ∧ p2 ≠ [] := by
  intro xs st
  induction xs, st using scanLoop.induct with
  | case1 st => intro h; simp [scanLoop] at h
  | case2 c param acc hq hemp => intro h; simp [scanLoop, hq, hemp] at h
  | case3 c param acc hq hemp =>
    intro _
    exact ⟨[], c, [], param, acc, rfl, hq, rfl, by simpa using hemp⟩
  | case4 c param acc hnq hsp => intro h; simp [scanLoop, hnq, hsp] at h
  | case5 param acc hnq hnsp => intro h; simp [scanLoop, hnq, hnsp] at h
  | case6 c param acc hnq hnsp hnb => intro h; simp [scanLoop, hnq, hnsp, hnb] at h
  | case7 q param acc => intro h; simp [scanLoop] at h
  | case8 q param acc hbq => intro h; simp [scanLoop, hbq] at h
  | case9 c q param acc hcq hcb => intro h; simp [scanLoop, hcq, hcb] at h
  | case10 c d rest2 param acc hq hemp ih =>
    intro h
    simp only [scanLoop, hq, hemp, if_true] at h
    obtain ⟨pre2, c2, post2, p2, acc2, heq, hq2, hok2, hne2⟩ := ih h
    refine ⟨c :: pre2, c2, post2, p2, acc2, by simp [heq], hq2, ?_, hne2⟩
    have h0 : scanLoop [c] (none, param, acc) = .ok (some c, param, acc) := by
      simp [scanLoop, hq, hemp]
    exact (scanLoop_append_ok pre2 [c] _ _ h0).trans hok2
  | case11 c d rest2 param acc hq hne =>
    intro _
    exact ⟨[], c, d :: rest2, param, acc, rfl, hq, rfl, by simpa using hne⟩
  | case12 c d rest2 param acc hnq hsp ih =>
    intro h
    simp only [scanLoop, hnq, hsp, if_true, if_false, Bool.false_eq_true] at h
    obtain ⟨pre2, c2, post2, p2, acc2, heq, hq2, hok2, hne2⟩ := ih h
    refine ⟨c :: pre2, c2, post2, p2, acc2, by simp [heq], hq2, ?_, hne2⟩
    have h0 : scanLoop [c] (none, param, acc) =
        .ok (none, [], if param.isEmpty = true then acc else acc ++ [param.asString]) := by
      simp [scanLoop, hnq, hsp]
    exact (scanLoop_append_ok pre2 [c] _ _ h0).trans hok2
  | case13 d rest2 param acc s hesc hnq hnsp ih =>
    intro h
    simp only [scanLoop, hnq, hnsp, hesc, if_false, Bool.false_eq_true, if_true] at h
    obtain ⟨pre2, c2, post2, p2, acc2, heq, hq2, hok2, hne2⟩ := ih h
    refine ⟨'\\' :: d :: pre2, c2, post2, p2, acc2, by simp [heq], hq2, ?_, hne2⟩
    have h0 : scanLoop ['\\', d] (none, param, acc) = .ok (none, param ++ [s], acc) := by
      simp [scanLoop, hnq, hnsp, hesc]
    exact (scanLoop_append_ok pre2 ['\\', d] _ _ h0).trans hok2
  | case14 d rest2 param acc hesc hnq hnsp ih =>
    intro h
    simp only [scanLoop, hnq, hnsp, hesc, if_false, Bool.false_eq_true] at h
    obtain ⟨pre2, c2, post2, p2, acc2, heq, hq2, hok2, hne2⟩ := ih h
    cases pre2 with
    | nil =>
      exfalso
      simp only [List.nil_append, List.cons.injEq] at heq
      obtain ⟨h1, _⟩ := heq
      subst h1
      have hd2 : d = '\'' ∨ d = '"' := by simpa [isQuoteChar] using hq2
      rcases hd2 with rfl | rfl <;> simp [parseEscapeSequence] at hesc
    | cons e pre3 =>
      simp only [List.cons_append, List.cons.injEq] at heq
      obtain ⟨h1, hrest⟩ := heq
      subst h1
      refine ⟨'\\' :: d :: pre3, c2, post2, p2, acc2, by simp [hrest], hq2, ?_, hne2⟩
      have h0 : scanLoop ('\\' :: d :: pre3) (none, param, acc) =
          scanLoop (d :: pre3) (none, param ++ ['\\'], acc) := by
        simp [scanLoop, hnq, hnsp, hesc]
      exact h0.trans hok2
  | case15 c d rest2 param acc hnq hnsp hnb ih =>
    intro h
    simp only [scanLoop, hnq, hnsp, hnb, if_false, Bool.false_eq_true] at h
    obtain ⟨pre2, c2, post2, p2, acc2, heq, hq2, hok2, hne2⟩ := ih h
    refine ⟨c :: pre2, c2, post2, p2, acc2, by simp [heq], hq2, ?_, hne2⟩
    have h0 : scanLoop [c] (none, param, acc) = .ok (none, param ++ [c], acc) := by
      simp [scanLoop, hnq, hnsp, hnb]
    exact (scanLoop_append_ok pre2 [c] _ _ h0).trans hok2
  | case16 d rest2 q param acc ih =>
    intro h
    simp only [scanLoop, if_true] at h
    obtain ⟨pre2, c2, post2, p2, acc2, heq, hq2, hok2, hne2⟩ := ih h
    refine ⟨q :: pre2, c2, post2, p2, acc2, by simp [heq], hq2, ?_, hne2⟩
    have h0 : scanLoop [q] (some q, param, acc) = .ok (none, param, acc) := by
      simp [scanLoop]
    exact (scanLoop_append_ok pre2 [q] _ _ h0).trans hok2
  | case17 d rest2 q param acc s hesc hbq ih =>
    intro h
    simp only [scanLoop, hesc, hbq, if_false, Bool.false_eq_true] at h
    obtain ⟨pre2, c2, post2, p2, acc2, heq, hq2, hok2, hne2⟩ := ih h
    refine ⟨'\\' :: d :: pre2, c2, post2, p2, acc2, by simp [heq], hq2, ?_, hne2⟩
    have h0 : scanLoop ['\\', d] (some q, param, acc) = .ok (some q, param ++ [s], acc) := by
      simp [scanLoop, hesc, hbq]
    exact (scanLoop_append_ok pre2 ['\\', d] _ _ h0).trans hok2
  | case18 d rest2 q param acc hesc hbq ih =>
    intro h
    simp only [scanLoop, hesc, hbq, if_false, Bool.false_eq_true] at h
    obtain ⟨pre2, c2, post2, p2, acc2, heq, hq2, hok2, hne2⟩ := ih h
    cases pre2 with
    | nil => simp [scanLoop] at hok2
    | cons e pre3 =>
      simp only [List.cons_append, List.cons.injEq] at heq
      obtain ⟨h1, hrest⟩ := heq
      subst h1
      refine ⟨'\\' :: d :: pre3, c2, post2, p2, acc2, by simp [hrest], hq2, ?_, hne2⟩
      have h0 : scanLoop ('\\' :: d :: pre3) (some q, param, acc) =
          scanLoop (d :: pre3) (some q, param ++ ['\\'], acc) := by
        simp [scanLoop, hesc, hbq]
      exact h0.trans hok2
  | case19 c d rest2 q param acc hcq hcb ih =>
    intro h
    simp only [scanLoop, hcq, hcb, if_false, Bool.false_eq_true] at h
    obtain ⟨pre2, c2, post2, p2, acc2, heq, hq2, hok2, hne2⟩ := ih h
    refine ⟨c :: pre2, c2, post2, p2, acc2, by simp [heq], hq2, ?_, hne2⟩
    have h0 : scanLoop [c] (some q, param, acc) = .ok (some q, param ++ [c], acc) := by
      simp [scanLoop, hcq, hcb]
    exact (scanLoop_append_ok pre2 [c] _ _ h0).trans hok2


/-- The scan fails with "unfinished escape sequence" only by reaching a
backslash that is the last character. -/
theorem scanLoop_escape_error_mp : ∀ (xs : List Char) (st : ScanState),
    scanLoop xs st = .error "unfinished escape sequence" →
    ∃ pre st2, xs = pre ++ ['\\'] ∧ scanLoop pre st = .ok st2 := by
  intro xs st
  induction xs, st using scanLoop.induct with
  | case1 st => intro h; simp [scanLoop] at h
  | case2 c param acc hq hemp => intro h; simp [scanLoop, hq, hemp] at h
  | case3 c param acc hq hemp => intro h; simp [scanLoop, hq, hemp] at h
  | case4 c param acc hnq hsp => intro h; simp [scanLoop, hnq, hsp] at h
  | case5 param acc hnq hnsp =>
    intro _
    exact ⟨[], (none, param, acc), rfl, rfl⟩
  | case6 c param acc hnq hnsp hnb => intro h; simp [scanLoop, hnq, hnsp, hnb] at h
  | case7 q param acc => intro h; simp [scanLoop] at h
  | case8 q param acc hbq =>
    intro _
    exact ⟨[], (some q, param, acc), rfl, rfl⟩
  | case9 c q param acc hcq hcb => intro h; simp [scanLoop, hcq, hcb] at h
  | case10 c d rest2 param acc hq hemp ih =>
    intro h
    simp only [scanLoop, hq, hemp, if_true] at h
    obtain ⟨pre2, st2, heq, hok2⟩ := ih h
    refine ⟨c :: pre2, st2, by simp [heq], ?_⟩
    have h0 : scanLoop [c] (none, param, acc) = .ok (some c, param, acc) := by
      simp [scanLoop, hq, hemp]
    exact (scanLoop_append_ok pre2 [c] _ _ h0).trans hok2
  | case11 c d rest2 param acc hq hne => intro h; simp [scanLoop, hq, hne] at h
  | case12 c d rest2 param acc hnq hsp ih =>
    intro h
    simp only [scanLoop, hnq, hsp, if_true, if_false, Bool.false_eq_true] at h
    obtain ⟨pre2, st2, heq, hok2⟩ := ih h
    refine ⟨c :: pre2, st2, by simp [heq], ?_⟩
    have h0 : scanLoop [c] (none, param, acc) =
        .ok (none, [], if param.isEmpty = true then acc else acc ++ [param.asString]) := by
      simp [scanLoop, hnq, hsp]
    exact (scanLoop_append_ok pre2 [c] _ _ h0).trans hok2
  | case13 d rest2 param acc s hesc hnq hnsp ih =>
    intro h
    simp only [scanLoop, hnq, hnsp, hesc, if_false, Bool.false_eq_true, if_true] at h
    obtain ⟨pre2, st2, heq, hok2⟩ := ih h
    refine ⟨'\\' :: d :: pre2, st2, by simp [heq], ?_⟩
    have h0 : scanLoop ['\\', d] (none, param, acc) = .ok (none, param ++ [s], acc) := by
      simp [scanLoop, hnq, hnsp, hesc]
    exact (scanLoop_append_ok pre2 ['\\', d] _ _ h0).trans hok2
  | case14 d rest2 param acc hesc hnq hnsp ih =>
    intro h
    simp only [scanLoop, hnq, hnsp, hesc, if_false, Bool.false_eq_true] at h
    obtain ⟨pre2, st2, heq, hok2⟩ := ih h
    cases pre2 with
    | nil =>
      exfalso
      simp only [List.nil_append, List.cons.injEq] at heq
      obtain ⟨h1, _⟩ := heq
      subst h1
      simp [parseEscapeSequence] at hesc
    | cons e pre3 =>
      simp only [List.cons_append, List.cons.injEq] at heq
      obtain ⟨h1, hrest⟩ := heq
      subst h1
      refine ⟨'\\' :: d :: pre3, st2, by simp [hrest], ?_⟩
      have h0 : scanLoop ('\\' :: d :: pre3) (none, param, acc) =
          scanLoop (d :: pre3) (none, param ++ ['\\'], acc) := by
        simp [scanLoop, hnq, hnsp, hesc]
      exact h0.trans hok2
  | case15 c d rest2 param acc hnq hnsp hnb ih =>
    intro h
    simp only [scanLoop, hnq, hnsp, hnb, if_false, Bool.false_eq_true] at h
    obtain ⟨pre2, st2, heq, hok2⟩ := ih h
    refine ⟨c :: pre2, st2, by simp [heq], ?_⟩
    have h0 : scanLoop [c] (none, param, acc) = .ok (none, param ++ [c], acc) := by
      simp [scanLoop, hnq, hnsp, hnb]
    exact (scanLoop_append_ok pre2 [c] _ _ h0).trans hok2
  | case16 d rest2 q param acc ih =>
    intro h
    simp only [scanLoop, if_true] at h
    obtain ⟨pre2, st2, heq, hok2⟩ := ih h
    refine ⟨q :: pre2, st2, by simp [heq], ?_⟩
    have h0 : scanLoop [q] (some q, param, acc) = .ok (none, param, acc) := by
      simp [scanLoop]
    exact (scanLoop_append_ok pre2 [q] _ _ h0).trans hok2
  | case17 d rest2 q param acc s hesc hbq ih =>
    intro h
    simp only [scanLoop, hesc, hbq, if_false, Bool.false_eq_true] at h
    obtain ⟨pre2, st2, heq, hok2⟩ := ih h
    refine ⟨'\\' :: d :: pre2, st2, by simp [heq], ?_⟩
    have h0 : scanLoop ['\\', d] (some q, param, acc) = .ok (some q, param ++ [s], acc) := by
      simp [scanLoop, hesc, hbq]
    exact (scanLoop_append_ok pre2 ['\\', d] _ _ h0).trans hok2
  | case18 d rest2 q param acc hesc hbq ih =>
    intro h
    simp only [scanLoop, hesc, hbq, if_false, Bool.false_eq_true] at h
    obtain ⟨pre2, st2, heq, hok2⟩ := ih h
    cases pre2 with
    | nil =>
      exfalso
      simp only [List.nil_append, List.cons.injEq] at heq
      obtain ⟨h1, _⟩ := heq
      subst h1
      simp [parseEscapeSequence] at hesc
    | cons e pre3 =>
      simp only [List.cons_append, List.cons.injEq] at heq
      obtain ⟨h1, hrest⟩ := heq
      subst h1
      refine ⟨'\\' :: d :: pre3, st2, by simp [hrest], ?_⟩
      have h0 : scanLoop ('\\' :: d :: pre3) (some q, param, acc) =
          scanLoop (d :: pre3) (some q, param ++ ['\\'], acc) := by
        simp [scanLoop, hesc, hbq]
      exact h0.trans hok2
  | case19 c d rest2 q param acc hcq hcb ih =>
    intro h
    simp only [scanLoop, hcq, hcb, if_false, Bool.false_eq_true] at h
    obtain ⟨pre2, st2, heq, hok2⟩ := ih h
    refine ⟨c :: pre2, st2, by simp [heq], ?_⟩
    have h0 : scanLoop [c] (some q, param, acc) = .ok (some q, param ++ [c], acc) := by
      simp [scanLoop, hcq, hcb]
    exact (scanLoop_append_ok pre2 [c] _ _ h0).trans hok2


/-- Reaching a quote character in non-quote mode with a non-empty current
parameter fails with "unexpected quotation character". -/
theorem scanLoop_quote_error_mpr (pre : List Char) (c : Char) (post p2 : List Char)
    (acc2 : List String) (st : ScanState) (hq : isQuoteChar c = true)
    (hok : scanLoop pre st = .ok (none, p2, acc2)) (hne : p2 ≠ []) :
    scanLoop (pre ++ c :: post) st = .error "unexpected quotation character" := by
  rw [scanLoop_append_ok (c :: post) pre st _ hok]
  cases post with
  | nil => simp [scanLoop, hq, List.isEmpty_iff, hne]
  | cons e post2 => simp [scanLoop, hq, List.isEmpty_iff, hne]


/-- A trailing backslash that the scan reaches (the prefix before it
completes without error) fails with "unfinished escape sequence". -/
theorem scanLoop_escape_error_mpr (pre : List Char) (st st2 : ScanState)
    (hm : modeOk st) (hok : scanLoop pre st = .ok st2) :
    scanLoop (pre ++ ['\\']) st = .error "unfinished escape sequence" := by
  have hm2 : modeOk st2 := scanLoop_modeOk pre st st2 hok hm
  rw [scanLoop_append_ok ['\\'] pre st st2 hok]
  obtain ⟨m, p, a⟩ := st2
  cases m with
  | none => simp [scanLoop, isQuoteChar, isSpaceChar]
  | some q =>
    have hq : isQuoteChar q = true := hm2
    have hne : ¬('\\' = q) := by
      intro hh
      subst hh
      simp [isQuoteChar] at hq
    simp [scanLoop, hne]


/-- C7 (amended): the tokenizer loop errors with "unexpected quotation
character" exactly when the scan reaches a quote character in non-quote
mode after content was written into the current parameter; it errors with
"unfinished escape sequence" exactly when the scan reaches a backslash
that is the last character of the line (a backslash already consumed by a
preceding escape sequence does not count); and a backslash followed by a
character outside the escape table keeps the backslash literally and
processes the following character normally, without error. -/
theorem c7_tokenizer_errors :
    (∀ (cs p : List Char) (acc : List String),
      scanLoop cs (none, p, acc) = .error "unexpected quotation character" ↔
      ∃ pre c post p2 acc2, cs = pre ++ c :: post ∧ isQuoteChar c = true ∧
        scanLoop pre (none, p, acc) = .ok (none, p2, acc2) ∧ p2 ≠ []) ∧
    (∀ (cs p : List Char) (acc : List String),
      scanLoop cs (none, p, acc) = .error "unfinished escape sequence" ↔
      ∃ pre st2, cs = pre ++ ['\\'] ∧ scanLoop pre (none, p, acc) = .ok st2) ∧
    (∀ (m : Option Char) (p : List Char) (acc : List String) (d : Char) (rest : List Char),
      (∀ q, m = some q → isQuoteChar q = true) → parseEscapeSequence d = none →
      scanLoop ('\\' :: d :: rest) (m, p, acc) = scanLoop (d :: rest) (m, p ++ ['\\'], acc)) := by
  refine ⟨?_, ?_, ?_⟩
  · intro cs p acc
    constructor
    · exact scanLoop_quote_error_mp cs (none, p, acc)
    · rintro ⟨pre, c, post, p2, acc2, rfl, hq, hok, hne⟩
      exact scanLoop_quote_error_mpr pre c post p2 acc2 _ hq hok hne
  · intro cs p acc
    constructor
    · exact scanLoop_escape_error_mp cs (none, p, acc)
    · rintro ⟨pre, st2, rfl, hok⟩
      exact scanLoop_escape_error_mpr pre _ st2 trivial hok
  · intro m p acc d rest hm hd
    cases m with
    | none => simp [scanLoop, isQuoteChar, isSpaceChar, hd]
    | some q =>
      have hq : isQuoteChar q = true := hm q rfl
      have hne : ¬('\\' = q) := by
        intro hh
        subst hh
        simp [isQuoteChar] at hq
      simp [scanLoop, hne, hd]


/-- C7 (counterexample): the line `C a\\` ends in a backslash yet
tokenizes without error (the final backslash is consumed by the `\\`
escape), refuting "fails ... exactly when a backslash is the last
character of the line" read over the raw line. -/
theorem c7_counterexample :
    parseCommand "C a\\\\" = .ok ("C", ["a\\"]) ∧
    "C a\\\\".toList.getLast? = some '\\' :=
  ⟨by decide, by decide⟩


/-- C7 (witness): the pass-through conjunct of `c7_tokenizer_errors` at
the unknown escape `\x`. -/
theorem c7_witness :
    scanLoop ('\\' :: 'x' :: []) (none, [], []) = scanLoop ('x' :: []) (none, [] ++ ['\\'], []) :=
  c7_tokenizer_errors.2.2 none [] [] 'x' [] (by simp) (by decide)


/-- C10 (amended): when the scan of a line's parameter section ends still
inside a quote (so the opening quote is never closed), the tokenizer
accepts the line: the collected characters become the final parameter,
exactly as if the quote had been closed at end of line.  (The dangling
backslash error can still pre-empt this, see the counterexample.) -/
theorem c10_unclosed_quote (cs : List Char) (q : Char) (p : List Char) (acc : List String)
    (h : scanLoop cs (none, [], []) = .ok (some q, p, acc)) :
    splitParams cs = .ok (acc ++ [p.asString]) ∧
    splitParams (cs ++ [q]) = splitParams cs := by
  have h2 : scanLoop (cs ++ [q]) (none, [], []) = .ok (none, p, acc) := by
    rw [scanLoop_append_ok [q] cs _ _ h]
    simp [scanLoop]
  constructor
  · simp [splitParams, h]
  · simp [splitParams, h, h2]


/-- C10 (counterexample): in `C 'ab\` the opening quote is never closed,
yet the tokenizer is not error-free: the trailing backslash wins and the
line is rejected with "unfinished escape sequence". -/
theorem c10_counterexample :
    parseCommand "C 'ab\\" = .error "unfinished escape sequence" := by
  decide


/-- C10 (witness): `c10_unclosed_quote` applied to the parameter section
`'ab`. -/
theorem c10_witness :
    splitParams "'ab".toList = .ok ([] ++ [['a', 'b'].asString]) ∧
    splitParams ("'ab".toList ++ ['\'']) = splitParams "'ab".toList :=
  c10_unclosed_quote "'ab".toList '\'' ['a', 'b'] [] (by decide)

/-- The read loop either consumes every line successfully or stops at the
first failing non-blank line: the lines split into a successfully
processed prefix, the failing line, and a suffix that is never touched
(any suffix yields the same error), and the error is tagged with the count
of non-blank lines up to and including the failing one. -/
theorem runLines_first_error : ∀ (lines : List String) (n : Nat) (s : Sheet),
    (∃ s2, runLines lines n s = .ok s2) ∨
    (∃ pre l post s1 e, lines = pre ++ l :: post ∧
      runLines pre n s = .ok s1 ∧ trimChars l.toList ≠ [] ∧ stepLine s1 l = .error e ∧
      ∀ post2, runLines (pre ++ l :: post2) n s =
        .error ("line " ++ toString (n + countNonBlank pre + 1) ++ ": " ++ e)) := by
  intro lines
  induction lines with
  | nil => intro n s; exact .inl ⟨s, rfl⟩
  | cons l ls ih =>
    intro n s
    by_cases hb : trimChars l.toList = []
    · have hb2 : trimChars l.data = [] := hb
      rcases ih n s with ⟨s2, hok⟩ | ⟨pre, l2, post, s1, e, heq, hpre, hnb, herr, hall⟩
      · exact .inl ⟨s2, by simp [runLines, hb, hb2, hok]⟩
      · right
        refine ⟨l :: pre, l2, post, s1, e, by simp [heq],
          by simp [runLines, hb, hb2, hpre], hnb, herr, ?_⟩
        intro post2
        have h2 := hall post2
        simp only [countNonBlank, hb, if_true, Nat.zero_add, List.cons_append]
        simp [runLines, hb, hb2]
        exact h2
    · have hb2 : ¬ trimChars l.data = [] := hb
      cases hst : stepLine s l with
      | error e =>
        right
        refine ⟨[], l, ls, s, e, rfl, rfl, hb, hst, ?_⟩
        intro post2
        simp [runLines, hb, hb2, hst, countNonBlank]
      | ok s2 =>
        rcases ih (n + 1) s2 with ⟨s3, hok⟩ | ⟨pre, l2, post, s1, e, heq, hpre, hnb, herr, hall⟩
        · exact .inl ⟨s3, by simp [runLines, hb, hb2, hst, hok]⟩
        · right
          refine ⟨l :: pre, l2, post, s1, e, by simp [heq],
            by simp [runLines, hb, hb2, hst, hpre], hnb, herr, ?_⟩
          intro post2
          have h2 := hall post2
          have harith : n + 1 + countNonBlank pre + 1 =
              n + ((if trimChars l.toList = [] then 0 else 1) + countNonBlank pre) + 1 := by
            rw [if_neg hb]
            omega
          rw [harith] at h2
          simp only [List.cons_append]
          simp [runLines, hb, hb2, hst]
          simpa [countNonBlank] using h2


/-- C8: `Parse` either returns a sheet, or the lines split into a
successfully processed prefix, a first failing non-blank line and an
untouched suffix, and the single returned error is the per-line message
tagged with "line N:" where N is the 1-based count of non-blank lines up
to the failing line; no sheet accompanies the error. -/
theorem c8_first_error (lines : List String) (ds : List ℚ) :
    (∃ s, Parse lines ds = .ok s) ∨
    (∃ pre l post s1 e, lines = pre ++ l :: post ∧
      runLines pre 0 initialSheet = .ok s1 ∧ trimChars l.toList ≠ [] ∧
      stepLine s1 l = .error e ∧
      ∀ post2, Parse (pre ++ l :: post2) ds =
        .error ("line " ++ toString (countNonBlank pre + 1) ++ ": " ++ e)) := by
  rcases runLines_first_error lines 0 initialSheet with ⟨s2, hok⟩ |
    ⟨pre, l, post, s1, e, heq, hpre, hnb, herr, hall⟩
  · exact .inl ⟨resolve ds s2, by simp [Parse, hok]⟩
  · right
    refine ⟨pre, l, post, s1, e, heq, hpre, hnb, herr, ?_⟩
    intro post2
    have h2 := hall post2
    simp only [Nat.zero_add] at h2
    simp [Parse, h2]


/-- C8 (witness): `c8_first_error` applied to a one-line input whose
TRACK command fails for lack of a FILE. -/
theorem c8_witness :
    (∃ s, Parse ["TRACK 01 AUDIO"] [] = .ok s) ∨
    (∃ pre l post s1 e, ["TRACK 01 AUDIO"] = pre ++ l :: post ∧
      runLines pre 0 initialSheet = .ok s1 ∧ trimChars l.toList ≠ [] ∧
      stepLine s1 l = .error e ∧
      ∀ post2, Parse (pre ++ l :: post2) [] =
        .error ("line " ++ toString (countNonBlank pre + 1) ++ ": " ++ e)) :=
  c8_first_error ["TRACK 01 AUDIO"] []

end Cue
